import Mathlib

/-!
Verification of the chess-claim-tool scanning/tracking core
(src/models/game_tracker.py and src/models/workers.py).

The Python code is embedded shallowly:
- `datetime.now()` becomes an explicit clock value `now : Nat` passed to each
  call, assumed distinct from stored timestamps where a claim needs it.
- The Python dict `GameTracker.games` maps identities to *object references*;
  we model the object store as `heap : List TrackedGame` and the dict as an
  insertion-ordered association list `keys : List (String × Nat)` of heap
  indices.  In-place mutation of a `TrackedGame` is `List.set` on the heap,
  so aliasing through previously returned handles is observable, exactly as
  in Python.
- Exceptions become an `Option PyErr` threaded through the scan-pass state;
  `try/except` blocks are translated branch by branch.
- External collaborators that are not part of src/ (the move formatter
  `claims.get_printable_move`, the identity deriver `get_players`, the board
  deriver `claims.get_board_number`, the evaluator `claims.check_game`, the
  exclusion lookup `claims.is_in_dont_check`) are inputs: per record their
  outcomes are fields of `RecordInput`, the formatter is a function argument.
-/

set_option autoImplicit false

namespace ChessClaimTool

/-- `GameStatus` enum from game_tracker.py. -/
inductive GameStatus where
  | ACTIVE
  | FINISHED
  | INVALID
  deriving DecidableEq, Repr, Inhabited

/-- `TrackedGame` dataclass from game_tracker.py (timestamps are abstract
clock values `Nat`). -/
structure TrackedGame where
  players : String
  board : String
  move_count : Nat
  last_update : Nat
  status : GameStatus
  result : String := "*"
  last_move : String := ""
  claims : List String := []
  has_error : Bool := false
  error_at_move : Option Nat := none
  deriving DecidableEq, Repr, Inhabited

/-- The Python dict `games`: insertion-ordered association of identity to a
heap reference, together with the heap of `TrackedGame` objects. -/
structure GameTracker where
  keys : List (String × Nat)
  heap : List TrackedGame
  deriving DecidableEq, Repr, Inhabited

/-- `GameTracker()` constructor: empty dict. -/
def GameTracker.empty : GameTracker := ⟨[], []⟩

/-- Dict lookup `self.games[players]` / `players in self.games`, returning
the heap reference bound to the identity. -/
def lookupRef : List (String × Nat) → String → Option Nat
  | [], _ => none
  | (q, r) :: rest, p => if q = p then some r else lookupRef rest p

/-- Status derivation at the top of `update_game`:
`ACTIVE` if result == "*" else `FINISHED`, then forced to `INVALID` when
`has_error`. -/
def derive_status (result : String) (has_error : Bool) : GameStatus :=
  let status := if result = "*" then GameStatus.ACTIVE else GameStatus.FINISHED
  if has_error then GameStatus.INVALID else status

/-- `GameTracker.update_game`.  `headers_result` is
`game.headers.get("Result", "*")` before the default is applied, i.e. the
`Result` header when present.  Returns the new tracker and the heap
reference of the returned `TrackedGame` object. -/
def GameTracker.update_game (t : GameTracker) (headers_result : Option String)
    (players board : String) (move_count : Nat) (last_move : String)
    (has_error : Bool) (error_at_move : Option Nat) (now : Nat) :
    GameTracker × Nat :=
  let result := headers_result.getD "*"
  let status := derive_status result has_error
  match lookupRef t.keys players with
  | some r =>
    let existing := t.heap.getD r default
    let updated : TrackedGame :=
      { existing with
        last_update := if move_count ≠ existing.move_count then now
                       else existing.last_update
        move_count := move_count
        status := status
        result := result
        last_move := last_move
        has_error := has_error
        error_at_move := error_at_move }
    ({ t with heap := t.heap.set r updated }, r)
  | none =>
    let tracked : TrackedGame :=
      { players := players
        board := board
        move_count := move_count
        last_update := now
        status := status
        result := result
        last_move := last_move
        claims := []
        has_error := has_error
        error_at_move := error_at_move }
    (⟨t.keys ++ [(players, t.heap.length)], t.heap ++ [tracked]⟩,
     t.heap.length)

/-- `GameTracker.add_claim_to_game`: no-op when the identity is unknown or
the claim type is already present, otherwise appends to the claims list of
the referenced object. -/
def GameTracker.add_claim_to_game (t : GameTracker)
    (players claim_type : String) : GameTracker :=
  match lookupRef t.keys players with
  | some r =>
    let g := t.heap.getD r default
    if claim_type ∈ g.claims then t
    else { t with heap := t.heap.set r { g with claims := g.claims ++ [claim_type] } }
  | none => t

/-- `GameTracker.get_all_games`: `list(self.games.values())` — a freshly
built list whose elements are the stored object references. -/
def GameTracker.get_all_games (t : GameTracker) : List Nat :=
  t.keys.map Prod.snd

/-- `GameTracker.clear`: `self.games.clear()` empties the dict; objects
already handed out stay alive on the heap. -/
def GameTracker.clear (t : GameTracker) : GameTracker :=
  { t with keys := [] }

/-- Dereference an identity to the stored record, when present. -/
def GameTracker.find (t : GameTracker) (players : String) : Option TrackedGame :=
  (lookupRef t.keys players).map fun r => t.heap.getD r default

/-- One public tracker operation; used to describe the trackers reachable
through the exported interface. -/
inductive Op where
  | update (headers_result : Option String) (players board : String)
      (move_count : Nat) (last_move : String) (has_error : Bool)
      (error_at_move : Option Nat) (now : Nat)
  | addClaim (players claim_type : String)
  | clearAll
  deriving DecidableEq, Repr

def applyOp (t : GameTracker) : Op → GameTracker
  | Op.update hr p b mc lm he eam now =>
    (t.update_game hr p b mc lm he eam now).1
  | Op.addClaim p c => t.add_claim_to_game p c
  | Op.clearAll => t.clear

def runOps (ops : List Op) : GameTracker :=
  ops.foldl applyOp GameTracker.empty

/-! ## workers.py: the ScanFile worker -/

/-- `Status` enum from src/helpers (external), as used by workers.py. -/
inductive Status where
  | OK
  | ERROR
  | ACTIVE
  | WAIT
  deriving DecidableEq, Repr

/-- A Python exception class, as far as the workers distinguish them:
`except FileNotFoundError` is the only selective handler. -/
inductive PyErr where
  | fileNotFound
  | other (msg : String)
  deriving DecidableEq, Repr

/-- What a worker emits through its Qt signals, in order. -/
inductive Event where
  | statusEv (s : Status)
  | gameUpdate (players : String)
  | addEntry (claim : String)
  | gamesCount (filename : String) (n : Nat)
  deriving DecidableEq, Repr

/-- Result of the move-replay block of `ScanFile.check_pgn`
(lines 170–191): the four locals it computes. -/
structure ReplayResult where
  move_count : Nat
  last_move : String
  has_error : Bool
  error_at_move : Option Nat
  deriving DecidableEq, Repr

/-- The `for move in game.mainline_moves()` loop.  Each move is `some san`
when `game_board.san(move)`/`push` succeed and `none` when they raise; the
move formatter `fmt` is the external `claims.get_printable_move`. -/
def replayMoves (fmt : Nat → String → String) :
    Nat → String → List (Option String) → ReplayResult
  | mc, lm, [] => ⟨mc, lm, false, none⟩
  | mc, _, m :: rest =>
    match m with
    | some san => replayMoves fmt (mc + 1) (fmt (mc + 1) san) rest
    | none =>
      ⟨mc + 1, "Error at move " ++ toString (mc + 1), true, some (mc + 1)⟩

/-- The whole replay block including the outer `try`: `none` means
`game.board()` itself raised (`last_move = "Parse error"`). -/
def replay (fmt : Nat → String → String)
    (rec : Option (List (Option String))) : ReplayResult :=
  match rec with
  | some moves => replayMoves fmt 0 "" moves
  | none => ⟨0, "Parse error", true, none⟩

/-- Everything `check_pgn` learns about one record read by `read_game`:
the outcomes of the external calls made for it.  `players` and `boardNum`
are `Except` because `get_players`/`get_board_number` may raise;
`findings` is the outcome of `claims.check_game(game)` (each finding
reduced to its claim-kind string, `entry[0].value`). -/
structure RecordInput where
  players : Except PyErr String
  boardNum : Except PyErr String
  replayRec : Option (List (Option String))
  headers_result : Option String
  excluded : Bool
  findings : Except PyErr (List String)
  deriving Repr

/-- Mutable state of one `check_pgn` pass: the shared tracker, the signals
emitted so far, the `games_in_scan` counter, a pending uncaught exception,
and a ghost log of the identities for which the external evaluator
`claims.check_game` has been invoked (recorded at the call site, purely to
state when the evaluator is called). -/
structure PassState where
  tracker : GameTracker
  events : List Event
  count : Nat
  err : Option PyErr
  evaluated : List String
  deriving Repr

/-- The `for entry in entries` loop at the end of the record body:
emit `add_entry_signal`, register the claim, emit `game_update_signal`. -/
def claimFold (players : String) (acc : PassState) (e : String) : PassState :=
  { acc with
    tracker := acc.tracker.add_claim_to_game players e
    events := acc.events ++ [Event.addEntry e, Event.gameUpdate players] }

/-- The body of the `while` loop of `check_pgn` for one record (lines
160–213).  `live` is `live_pgn_option.isChecked()`; `games_in_scan` is
incremented as soon as the record is read. -/
def processRecord (live : Bool) (fmt : Nat → String → String) (now : Nat)
    (s : PassState) (rec : RecordInput) : PassState :=
  match rec.players with
  | Except.error e => { s with count := s.count + 1, err := some e }
  | Except.ok players =>
  match rec.boardNum with
  | Except.error e => { s with count := s.count + 1, err := some e }
  | Except.ok board =>
    let rr := replay fmt rec.replayRec
    let s1 : PassState :=
      { s with
        count := s.count + 1
        tracker := (s.tracker.update_game rec.headers_result players board
          rr.move_count rr.last_move rr.has_error rr.error_at_move now).1
        events := s.events ++ [Event.gameUpdate players] }
    if live && decide (rec.headers_result.getD "*" ≠ "*") then s1
    else if rec.excluded then s1
    else if rr.has_error then s1
    else
      let s2 := { s1 with evaluated := s1.evaluated ++ [players] }
      match rec.findings with
      | Except.error e => { s2 with err := some e }
      | Except.ok entries => entries.foldl (claimFold players) s2

/-- The `while not self.stop_event.is_set()` loop of `check_pgn`, with the
stop event never set during the pass; an uncaught exception aborts the
loop. -/
def processAll (live : Bool) (fmt : Nat → String → String) (now : Nat)
    (s : PassState) : List RecordInput → PassState
  | [] => s
  | r :: rest =>
    let s' := processRecord live fmt now s r
    if s'.err.isSome then s' else processAll live fmt now s' rest

/-- `ScanFile.check_pgn` (lines 154–217).  `fileContent` is `none` when
`open(self.filename)` raises `FileNotFoundError`.  The outer
`try/except FileNotFoundError: pass` swallows only that error class; the
`games_count_signal` on line 217 runs exactly when no other exception is
propagating. -/
def check_pgn (live : Bool) (fmt : Nat → String → String) (now : Nat)
    (filename : String) (fileContent : Option (List RecordInput))
    (t : GameTracker) : PassState :=
  match fileContent with
  | none =>
    { tracker := t, events := [Event.gamesCount filename 0], count := 0,
      err := none, evaluated := [] }
  | some recs =>
    let s := processAll live fmt now
      { tracker := t, events := [], count := 0, err := none, evaluated := [] }
      recs
    match s.err with
    | none =>
      { s with events := s.events ++ [Event.gamesCount filename s.count] }
    | some PyErr.fileNotFound =>
      { s with err := none,
               events := s.events ++ [Event.gamesCount filename s.count] }
    | some _ => s

/-- `ScanFile.is_file_updated`. -/
def is_file_updated (last_size current_size : Nat) : Bool :=
  current_size ≠ 0 && last_size ≠ current_size

/-- One iteration of `ScanFile.run`'s polling loop (lines 139–152).
`fileSize` is `none` when `os.path.getsize` raises `FileNotFoundError`.
The result carries the tracker, the signals emitted this iteration and the
new `last_size`; `Except.error` means an exception escaped `check_pgn`
(there is no handler in `run`, so the loop — the worker — terminates). -/
def runIteration (live : Bool) (fmt : Nat → String → String) (now : Nat)
    (filename : String) (last_size : Nat) (fileSize : Option Nat)
    (fileContent : Option (List RecordInput)) (t : GameTracker) :
    Except PyErr (GameTracker × List Event × Nat) :=
  let size_of_pgn := fileSize.getD 0
  if is_file_updated last_size size_of_pgn then
    let s := check_pgn live fmt now filename fileContent t
    match s.err with
    | some e => Except.error e
    | none =>
      Except.ok (s.tracker,
        Event.statusEv Status.ACTIVE :: s.events ++ [Event.statusEv Status.WAIT],
        size_of_pgn)
  else
    Except.ok (t, [Event.statusEv Status.WAIT], size_of_pgn)

/-! ## workers.py: the MakePgn worker -/

/-- `MakePgn.make_pgn` (lines 417–429), as the bytes written to the
combined file.  Each element of `files` is one entry of `self.filepaths`:
`some content` when the file opens, `none` when `open` raises
`FileNotFoundError` (skipped by `continue`). -/
def make_pgn_data (files : List (Option String)) : String :=
  files.foldl
    (fun data c =>
      match c with
      | some content => data ++ "\n\n" ++ content
      | none => data)
    ""

/-- What the claim says the combined file holds: the contents of the
existing source files in list order, separated by a blank line.  (Spec-side
definition, for comparison with `make_pgn_data`.) -/
def spec_concat (files : List (Option String)) : String :=
  String.intercalate "\n\n" (files.filterMap id)

/-! ## Basic facts about the tracker -/

/-- Well-formedness: every heap reference held by the dict is a valid heap
index.  Every tracker reachable through the public operations satisfies
this. -/
def WF (t : GameTracker) : Prop := ∀ pr ∈ t.keys, pr.2 < t.heap.length

instance decidableWF (t : GameTracker) : Decidable (WF t) :=
  inferInstanceAs (Decidable (∀ pr ∈ t.keys, pr.2 < t.heap.length))

theorem getD_set_self {α : Type _} (l : List α) (i : Nat) (a d : α)
    (h : i < l.length) : (l.set i a).getD i d = a := by
  simp [List.getD_eq_getElem?_getD, List.getElem?_set_self, h]

theorem lookupRef_mem {p : String} {r : Nat} :
    ∀ {ks : List (String × Nat)}, lookupRef ks p = some r → (p, r) ∈ ks := by
  intro ks
  induction ks with
  | nil => intro h; simp [lookupRef] at h
  | cons x xs ih =>
    intro h
    obtain ⟨q, n⟩ := x
    by_cases hq : q = p
    · subst hq
      simp [lookupRef] at h
      obtain rfl := h
      exact List.mem_cons_self _ _
    · simp only [lookupRef, if_neg hq] at h
      exact List.mem_cons_of_mem _ (ih h)

theorem lookupRef_append_self {p : String} {n : Nat} :
    ∀ {ks : List (String × Nat)}, lookupRef ks p = none →
      lookupRef (ks ++ [(p, n)]) p = some n := by
  intro ks
  induction ks with
  | nil => intro _; simp [lookupRef]
  | cons x xs ih =>
    intro h
    obtain ⟨q, m⟩ := x
    by_cases hq : q = p
    · simp [lookupRef, hq] at h
    · simp only [lookupRef, if_neg hq, List.cons_append] at h ⊢
      exact ih h

/-- `update_game` on an identity already in the dict: the dict is untouched
and the referenced object is overwritten in place. -/
theorem update_game_existing (t : GameTracker) (hr : Option String)
    (p b lm : String) (mc : Nat) (he : Bool) (eam : Option Nat) (now : Nat)
    (r : Nat) (hl : lookupRef t.keys p = some r) :
    t.update_game hr p b mc lm he eam now =
      ({ t with
         heap := t.heap.set r
           ({ t.heap.getD r default with
              last_update := if mc ≠ (t.heap.getD r default).move_count then now
                             else (t.heap.getD r default).last_update
              move_count := mc
              status := derive_status (hr.getD "*") he
              result := hr.getD "*"
              last_move := lm
              has_error := he
              error_at_move := eam }) }, r) := by
  simp [GameTracker.update_game, hl]

/-- `update_game` on a fresh identity: a new object is allocated and bound. -/
theorem update_game_new (t : GameTracker) (hr : Option String)
    (p b lm : String) (mc : Nat) (he : Bool) (eam : Option Nat) (now : Nat)
    (hl : lookupRef t.keys p = none) :
    t.update_game hr p b mc lm he eam now =
      (⟨t.keys ++ [(p, t.heap.length)],
        t.heap ++ [⟨p, b, mc, now, derive_status (hr.getD "*") he,
                    hr.getD "*", lm, [], he, eam⟩]⟩, t.heap.length) := by
  simp [GameTracker.update_game, hl]

theorem find_update_game_existing (t : GameTracker) (hr : Option String)
    (p b lm : String) (mc : Nat) (he : Bool) (eam : Option Nat) (now : Nat)
    (r : Nat) (hl : lookupRef t.keys p = some r) (hlen : r < t.heap.length) :
    (t.update_game hr p b mc lm he eam now).1.find p =
      some { t.heap.getD r default with
             last_update := if mc ≠ (t.heap.getD r default).move_count then now
                            else (t.heap.getD r default).last_update
             move_count := mc
             status := derive_status (hr.getD "*") he
             result := hr.getD "*"
             last_move := lm
             has_error := he
             error_at_move := eam } := by
  rw [update_game_existing t hr p b lm mc he eam now r hl]
  simp [GameTracker.find, hl, List.getElem?_set_self, hlen]

theorem find_update_game_new (t : GameTracker) (hr : Option String)
    (p b lm : String) (mc : Nat) (he : Bool) (eam : Option Nat) (now : Nat)
    (hl : lookupRef t.keys p = none) :
    (t.update_game hr p b mc lm he eam now).1.find p =
      some ⟨p, b, mc, now, derive_status (hr.getD "*") he,
            hr.getD "*", lm, [], he, eam⟩ := by
  rw [update_game_new t hr p b lm mc he eam now hl]
  simp [GameTracker.find, lookupRef_append_self hl]

/-- After any `update_game`, the record found for the identity carries the
derived status. -/
theorem find_update_game_status (t : GameTracker) (hwf : WF t)
    (hr : Option String) (p b lm : String) (mc : Nat) (he : Bool)
    (eam : Option Nat) (now : Nat) :
    ((t.update_game hr p b mc lm he eam now).1.find p).map TrackedGame.status
      = some (derive_status (hr.getD "*") he) := by
  cases hl : lookupRef t.keys p with
  | none => rw [find_update_game_new t hr p b lm mc he eam now hl]; rfl
  | some r =>
    have hlen : r < t.heap.length := hwf _ (lookupRef_mem hl)
    rw [find_update_game_existing t hr p b lm mc he eam now r hl hlen]
    rfl

theorem getD_mem {α : Type _} {l : List α} {i : Nat} {d : α}
    (h : i < l.length) : l.getD i d ∈ l := by
  rw [List.getD_eq_getElem?_getD, List.getElem?_eq_getElem h]
  exact List.getElem_mem h

theorem add_claim_unknown (t : GameTracker) (p c : String)
    (hl : lookupRef t.keys p = none) : t.add_claim_to_game p c = t := by
  simp [GameTracker.add_claim_to_game, hl]

theorem add_claim_present (t : GameTracker) (p c : String) (r : Nat)
    (hl : lookupRef t.keys p = some r)
    (hc : c ∈ (t.heap.getD r default).claims) :
    t.add_claim_to_game p c = t := by
  have hc' := hc
  rw [List.getD_eq_getElem?_getD] at hc'
  simp [GameTracker.add_claim_to_game, hl, hc']

theorem add_claim_absent (t : GameTracker) (p c : String) (r : Nat)
    (hl : lookupRef t.keys p = some r)
    (hc : c ∉ (t.heap.getD r default).claims) :
    t.add_claim_to_game p c =
      { t with
        heap := t.heap.set r
          ({ t.heap.getD r default with
             claims := (t.heap.getD r default).claims ++ [c] }) } := by
  have hc' := hc
  rw [List.getD_eq_getElem?_getD] at hc'
  simp [GameTracker.add_claim_to_game, hl, hc']

theorem find_add_claim_absent (t : GameTracker) (p c : String) (r : Nat)
    (hl : lookupRef t.keys p = some r) (hlen : r < t.heap.length)
    (hc : c ∉ (t.heap.getD r default).claims) :
    (t.add_claim_to_game p c).find p =
      some ({ t.heap.getD r default with
              claims := (t.heap.getD r default).claims ++ [c] }) := by
  rw [add_claim_absent t p c r hl hc]
  simp [GameTracker.find, hl, List.getElem?_set_self, hlen]

theorem add_claim_idem (t : GameTracker) (p c : String) :
    (t.add_claim_to_game p c).add_claim_to_game p c
      = t.add_claim_to_game p c := by
  cases hl : lookupRef t.keys p with
  | none => rw [add_claim_unknown t p c hl, add_claim_unknown t p c hl]
  | some r =>
    by_cases hc : c ∈ (t.heap.getD r default).claims
    · rw [add_claim_present t p c r hl hc, add_claim_present t p c r hl hc]
    · by_cases hlen : r < t.heap.length
      · rw [add_claim_absent t p c r hl hc]
        apply add_claim_present _ p c r
        · exact hl
        · rw [getD_set_self _ _ _ _ hlen]
          exact List.mem_append_right _ (List.mem_singleton_self c)
      · have ht' : t.add_claim_to_game p c = t := by
          rw [add_claim_absent t p c r hl hc,
              List.set_eq_of_length_le (Nat.le_of_not_lt hlen)]
        rw [ht']
        exact ht'

/-! ## Invariants of the reachable trackers -/

/-- Every object on the heap that records an error is marked `INVALID`. -/
def heapErrInv (t : GameTracker) : Prop :=
  ∀ g ∈ t.heap, g.has_error = true → g.status = GameStatus.INVALID

/-- No object on the heap carries a duplicate claim kind. -/
def heapClaimsNodup (t : GameTracker) : Prop :=
  ∀ g ∈ t.heap, g.claims.Nodup

theorem heapErrInv_applyOp {t : GameTracker} (h : heapErrInv t) (op : Op) :
    heapErrInv (applyOp t op) := by
  cases op with
  | clearAll => exact h
  | update hr p b mc lm he eam now =>
    cases hl : lookupRef t.keys p with
    | none =>
      intro g hg hge
      rw [applyOp, update_game_new t hr p b lm mc he eam now hl] at hg
      rcases List.mem_append.mp hg with hmem | hmem
      · exact h g hmem hge
      · obtain rfl := List.mem_singleton.mp hmem
        have hhe : he = true := hge
        subst hhe
        simp [derive_status]
    | some r =>
      intro g hg hge
      rw [applyOp, update_game_existing t hr p b lm mc he eam now r hl] at hg
      by_cases hlen : r < t.heap.length
      · rcases List.mem_or_eq_of_mem_set hg with hmem | rfl
        · exact h g hmem hge
        · have hhe : he = true := hge
          subst hhe
          simp [derive_status]
      · rw [List.set_eq_of_length_le (Nat.le_of_not_lt hlen)] at hg
        exact h g hg hge
  | addClaim p c =>
    cases hl : lookupRef t.keys p with
    | none => rw [applyOp, add_claim_unknown t p c hl]; exact h
    | some r =>
      by_cases hc : c ∈ (t.heap.getD r default).claims
      · rw [applyOp, add_claim_present t p c r hl hc]; exact h
      · intro g hg hge
        rw [applyOp, add_claim_absent t p c r hl hc] at hg
        by_cases hlen : r < t.heap.length
        · rcases List.mem_or_eq_of_mem_set hg with hmem | rfl
          · exact h g hmem hge
          · exact h (t.heap.getD r default) (getD_mem hlen) hge
        · rw [List.set_eq_of_length_le (Nat.le_of_not_lt hlen)] at hg
          exact h g hg hge

theorem heapClaimsNodup_applyOp {t : GameTracker} (h : heapClaimsNodup t)
    (op : Op) : heapClaimsNodup (applyOp t op) := by
  cases op with
  | clearAll => exact h
  | update hr p b mc lm he eam now =>
    cases hl : lookupRef t.keys p with
    | none =>
      intro g hg
      rw [applyOp, update_game_new t hr p b lm mc he eam now hl] at hg
      rcases List.mem_append.mp hg with hmem | hmem
      · exact h g hmem
      · obtain rfl := List.mem_singleton.mp hmem
        exact List.nodup_nil
    | some r =>
      intro g hg
      rw [applyOp, update_game_existing t hr p b lm mc he eam now r hl] at hg
      by_cases hlen : r < t.heap.length
      · rcases List.mem_or_eq_of_mem_set hg with hmem | rfl
        · exact h g hmem
        · exact h (t.heap.getD r default) (getD_mem hlen)
      · rw [List.set_eq_of_length_le (Nat.le_of_not_lt hlen)] at hg
        exact h g hg
  | addClaim p c =>
    cases hl : lookupRef t.keys p with
    | none => rw [applyOp, add_claim_unknown t p c hl]; exact h
    | some r =>
      by_cases hc : c ∈ (t.heap.getD r default).claims
      · rw [applyOp, add_claim_present t p c r hl hc]; exact h
      · intro g hg
        rw [applyOp, add_claim_absent t p c r hl hc] at hg
        by_cases hlen : r < t.heap.length
        · rcases List.mem_or_eq_of_mem_set hg with hmem | rfl
          · exact h g hmem
          · have hnd := h (t.heap.getD r default) (getD_mem hlen)
            have hc' := hc
            rw [List.getD_eq_getElem?_getD] at hnd hc'
            simp [List.nodup_append, hnd, hc']
        · rw [List.set_eq_of_length_le (Nat.le_of_not_lt hlen)] at hg
          exact h g hg

theorem heapErrInv_runOps (ops : List Op) : heapErrInv (runOps ops) := by
  have main : ∀ os : List Op, ∀ t : GameTracker, heapErrInv t →
      heapErrInv (os.foldl applyOp t) := by
    intro os
    induction os with
    | nil => intro t h; exact h
    | cons op rest ih => intro t h; exact ih _ (heapErrInv_applyOp h op)
  refine main ops GameTracker.empty ?_
  intro g hg
  simp [GameTracker.empty] at hg

theorem heapClaimsNodup_runOps (ops : List Op) :
    heapClaimsNodup (runOps ops) := by
  have main : ∀ os : List Op, ∀ t : GameTracker, heapClaimsNodup t →
      heapClaimsNodup (os.foldl applyOp t) := by
    intro os
    induction os with
    | nil => intro t h; exact h
    | cons op rest ih => intro t h; exact ih _ (heapClaimsNodup_applyOp h op)
  refine main ops GameTracker.empty ?_
  intro g hg
  simp [GameTracker.empty] at hg

theorem find_eq_some {t : GameTracker} {p : String} {g : TrackedGame}
    (hf : t.find p = some g) :
    ∃ r, lookupRef t.keys p = some r ∧ t.heap.getD r default = g := by
  unfold GameTracker.find at hf
  cases hl : lookupRef t.keys p with
  | none => rw [hl] at hf; simp at hf
  | some r =>
    rw [hl] at hf
    simp at hf
    exact ⟨r, rfl, by rw [List.getD_eq_getElem?_getD]; exact hf⟩

/-! ## The claims -/

/-- Claim C1: For any `update_game` call on an identity already present, the
stored `last_update` becomes `now` exactly when the `move_count` argument
differs from the previously stored `move_count`, and is left at its old
value otherwise; since the call is quantified over all other arguments
(`result` header, `last_move`, `has_error`, `error_at_move`, `board`),
changes to them alone leave `last_update` unchanged.  With a fresh clock
value the timestamp therefore changes iff `move_count` changed. -/
theorem update_game_last_update_iff_move_count
    (t : GameTracker) (hr : Option String) (p b lm : String) (mc : Nat)
    (he : Bool) (eam : Option Nat) (now : Nat) (r : Nat)
    (hl : lookupRef t.keys p = some r) (hlen : r < t.heap.length)
    (g : TrackedGame)
    (hg : (t.update_game hr p b mc lm he eam now).1.find p = some g)
    (hnow : now ≠ (t.heap.getD r default).last_update) :
    g.last_update = (if mc ≠ (t.heap.getD r default).move_count then now
                     else (t.heap.getD r default).last_update)
    ∧ (g.last_update ≠ (t.heap.getD r default).last_update
        ↔ mc ≠ (t.heap.getD r default).move_count) := by
  rw [find_update_game_existing t hr p b lm mc he eam now r hl hlen] at hg
  obtain rfl := Option.some.inj hg
  refine ⟨rfl, ?_⟩
  show (if mc ≠ (t.heap.getD r default).move_count then now
        else (t.heap.getD r default).last_update)
      ≠ (t.heap.getD r default).last_update
    ↔ mc ≠ (t.heap.getD r default).move_count
  by_cases hmc : mc = (t.heap.getD r default).move_count
  · rw [if_neg (not_not_intro hmc)]
    exact ⟨fun h => absurd rfl h, fun h => absurd hmc h⟩
  · rw [if_pos hmc]
    exact ⟨fun _ => hmc, fun _ => hnow⟩

theorem update_game_last_update_iff_move_count_witness :
    let t1 := (GameTracker.empty.update_game (some "*") "A" "b1" 5 "m"
      false none 10).1
    let g1 : TrackedGame :=
      ⟨"A", "b1", 7, 20, GameStatus.ACTIVE, "*", "m2", [], false, none⟩
    g1.last_update = (if 7 ≠ (t1.heap.getD 0 default).move_count then 20
                      else (t1.heap.getD 0 default).last_update)
    ∧ (g1.last_update ≠ (t1.heap.getD 0 default).last_update
        ↔ 7 ≠ (t1.heap.getD 0 default).move_count) :=
  update_game_last_update_iff_move_count
    (GameTracker.empty.update_game (some "*") "A" "b1" 5 "m" false none 10).1
    (some "*") "A" "b1" "m2" 7 false none 20 0 (by decide) (by decide)
    ⟨"A", "b1", 7, 20, GameStatus.ACTIVE, "*", "m2", [], false, none⟩
    (by decide) (by decide)

/-- Claim C10: For an identity already present, `update_game` never touches
the stored `board`: it keeps the value given at creation even when a
different `board` argument is passed; the argument-carrying fields
(`move_count`, `status`, `result`, `last_move`, `has_error`,
`error_at_move`) are overwritten with the new values (and the claims list,
which has no argument, is preserved as well). -/
theorem update_game_preserves_board
    (t : GameTracker) (hr : Option String) (p b lm : String) (mc : Nat)
    (he : Bool) (eam : Option Nat) (now : Nat) (r : Nat)
    (hl : lookupRef t.keys p = some r) (hlen : r < t.heap.length)
    (g : TrackedGame)
    (hg : (t.update_game hr p b mc lm he eam now).1.find p = some g) :
    g.board = (t.heap.getD r default).board
    ∧ g.players = (t.heap.getD r default).players
    ∧ g.claims = (t.heap.getD r default).claims
    ∧ g.move_count = mc
    ∧ g.status = derive_status (hr.getD "*") he
    ∧ g.result = hr.getD "*"
    ∧ g.last_move = lm
    ∧ g.has_error = he
    ∧ g.error_at_move = eam := by
  rw [find_update_game_existing t hr p b lm mc he eam now r hl hlen] at hg
  obtain rfl := Option.some.inj hg
  exact ⟨rfl, rfl, rfl, rfl, rfl, rfl, rfl, rfl, rfl⟩

theorem update_game_preserves_board_witness :
    let t1 := (GameTracker.empty.update_game (some "*") "A" "board4" 5 "m"
      false none 10).1
    let g1 : TrackedGame :=
      ⟨"A", "board4", 7, 20, GameStatus.ACTIVE, "*", "m2", [], false, none⟩
    g1.board = (t1.heap.getD 0 default).board
    ∧ g1.players = (t1.heap.getD 0 default).players
    ∧ g1.claims = (t1.heap.getD 0 default).claims
    ∧ g1.move_count = 7
    ∧ g1.status = derive_status ((some "*").getD "*") false
    ∧ g1.result = (some "*").getD "*"
    ∧ g1.last_move = "m2"
    ∧ g1.has_error = false
    ∧ g1.error_at_move = none :=
  update_game_preserves_board
    (GameTracker.empty.update_game (some "*") "A" "board4" 5 "m" false none 10).1
    (some "*") "A" "board9" "m2" 7 false none 20 0 (by decide) (by decide)
    ⟨"A", "board4", 7, 20, GameStatus.ACTIVE, "*", "m2", [], false, none⟩
    (by decide)

/-- Claim C2 (counterexample): `get_all_games` does not hand out independent
copies: after taking a snapshot, a further `update_game` on the same
identity changes the object reachable through the snapshot's (sole)
handle — the snapshot is a live view of the store, refuting the claim that
entries are "independent copies or an immutable listing, never live
handles whose contents change under later mutations". -/
theorem get_all_games_live_handle_counterexample :
    let t1 := (GameTracker.empty.update_game (some "*") "Alice vs Bob" "1" 5
      "1.e4" false none 10).1
    let snapshot := t1.get_all_games
    let t2 := (t1.update_game (some "*") "Alice vs Bob" "1" 7 "2.Nf3" false
      none 20).1
    snapshot = [0]
    ∧ t2.get_all_games = snapshot
    ∧ (t1.heap.getD 0 default).move_count = 5
    ∧ (t2.heap.getD 0 default).move_count = 7
    ∧ t1.heap.getD 0 default ≠ t2.heap.getD 0 default := by decide

/-- Claim C2 (amended): `get_all_games` returns a freshly built listing, and
an `update_game` on an existing identity leaves that listing unchanged —
but the listing's entries are handles into the store: the very object a
previous snapshot points to is overwritten in place by the update, so
consumers observe later mutations through their snapshot. -/
theorem get_all_games_snapshot_aliases_store (t : GameTracker)
    (hr : Option String) (p b lm : String) (mc : Nat) (he : Bool)
    (eam : Option Nat) (now : Nat) (r : Nat)
    (hl : lookupRef t.keys p = some r) (hlen : r < t.heap.length) :
    (t.update_game hr p b mc lm he eam now).1.get_all_games = t.get_all_games
    ∧ r ∈ t.get_all_games
    ∧ (t.update_game hr p b mc lm he eam now).1.heap.getD r default
        = { t.heap.getD r default with
            last_update := if mc ≠ (t.heap.getD r default).move_count then now
                           else (t.heap.getD r default).last_update
            move_count := mc
            status := derive_status (hr.getD "*") he
            result := hr.getD "*"
            last_move := lm
            has_error := he
            error_at_move := eam } := by
  rw [update_game_existing t hr p b lm mc he eam now r hl]
  refine ⟨rfl, ?_, ?_⟩
  · exact List.mem_map_of_mem Prod.snd (lookupRef_mem hl)
  · exact getD_set_self _ _ _ _ hlen

theorem get_all_games_snapshot_aliases_store_witness :
    let t1 := (GameTracker.empty.update_game (some "*") "Alice vs Bob" "1" 5
      "1.e4" false none 10).1
    (t1.update_game (some "*") "Alice vs Bob" "1" 7 "2.Nf3" false
        none 20).1.get_all_games = t1.get_all_games
    ∧ 0 ∈ t1.get_all_games
    ∧ (t1.update_game (some "*") "Alice vs Bob" "1" 7 "2.Nf3" false
          none 20).1.heap.getD 0 default
        = { t1.heap.getD 0 default with
            last_update := if 7 ≠ (t1.heap.getD 0 default).move_count then 20
                           else (t1.heap.getD 0 default).last_update
            move_count := 7
            status := derive_status ((some "*").getD "*") false
            result := (some "*").getD "*"
            last_move := "2.Nf3"
            has_error := false
            error_at_move := none } :=
  get_all_games_snapshot_aliases_store
    (GameTracker.empty.update_game (some "*") "Alice vs Bob" "1" 5 "1.e4"
      false none 10).1
    (some "*") "Alice vs Bob" "1" "2.Nf3" 7 false none 20 0
    (by decide) (by decide)

/-- Claim C6: `update_game` stores the status derived from the record:
`FINISHED` when the result header (defaulted to `"*"`) differs from `"*"`,
`ACTIVE` otherwise, and forced to `INVALID` whenever `has_error`; and in
every tracker reachable through the public operations, every stored game
with `has_error = true` has status `INVALID`, regardless of its result. -/
theorem update_game_status_invariant (t : GameTracker) (hwf : WF t)
    (hr : Option String) (p b lm : String) (mc : Nat) (he : Bool)
    (eam : Option Nat) (now : Nat) (ops : List Op) (g2 : TrackedGame)
    (hg2 : g2 ∈ (runOps ops).heap) (hge : g2.has_error = true) :
    ((t.update_game hr p b mc lm he eam now).1.find p).map TrackedGame.status
      = some (derive_status (hr.getD "*") he)
    ∧ derive_status (hr.getD "*") he
        = (if he then GameStatus.INVALID
           else if hr.getD "*" ≠ "*" then GameStatus.FINISHED
           else GameStatus.ACTIVE)
    ∧ g2.status = GameStatus.INVALID := by
  refine ⟨find_update_game_status t hwf hr p b lm mc he eam now, ?_,
    heapErrInv_runOps ops g2 hg2 hge⟩
  cases he <;> by_cases hres : hr.getD "*" = "*" <;>
    simp [derive_status, hres]

theorem update_game_status_invariant_witness :
    (((GameTracker.empty.update_game (some "1-0") "A" "b" 3 "m" true
        (some 3) 5).1.find "A").map TrackedGame.status
      = some (derive_status ((some "1-0").getD "*") true))
    ∧ derive_status ((some "1-0").getD "*") true
        = (if true then GameStatus.INVALID
           else if (some "1-0").getD "*" ≠ "*" then GameStatus.FINISHED
           else GameStatus.ACTIVE)
    ∧ (⟨"A", "b", 3, 5, GameStatus.INVALID, "1-0", "m", [], true,
        some 3⟩ : TrackedGame).status = GameStatus.INVALID :=
  update_game_status_invariant GameTracker.empty (by decide)
    (some "1-0") "A" "b" "m" 3 true (some 3) 5
    [Op.update (some "1-0") "A" "b" 3 "m" true (some 3) 5]
    ⟨"A", "b", 3, 5, GameStatus.INVALID, "1-0", "m", [], true, some 3⟩
    (by decide) (by decide)

/-- Claim C7: `add_claim_to_game` is a no-op when the identity is unknown or
the claim kind is already present; otherwise it appends the kind at the end
(preserving first-seen order); it is idempotent; and in every tracker
reachable through the public operations no stored claims list contains a
duplicate. -/
theorem add_claim_to_game_semantics (t : GameTracker) (p c : String)
    (g : TrackedGame) (hwf : WF t) (ops : List Op) (g2 : TrackedGame)
    (hg2 : g2 ∈ (runOps ops).heap) :
    (lookupRef t.keys p = none → t.add_claim_to_game p c = t)
    ∧ (t.find p = some g → c ∈ g.claims → t.add_claim_to_game p c = t)
    ∧ (t.find p = some g → c ∉ g.claims →
        (t.add_claim_to_game p c).find p
          = some ({ g with claims := g.claims ++ [c] }))
    ∧ (t.add_claim_to_game p c).add_claim_to_game p c
        = t.add_claim_to_game p c
    ∧ g2.claims.Nodup := by
  refine ⟨fun hl => add_claim_unknown t p c hl, ?_, ?_,
    add_claim_idem t p c, heapClaimsNodup_runOps ops g2 hg2⟩
  · intro hf hc
    obtain ⟨r, hl, hgr⟩ := find_eq_some hf
    subst hgr
    exact add_claim_present t p c r hl hc
  · intro hf hc
    obtain ⟨r, hl, hgr⟩ := find_eq_some hf
    subst hgr
    exact find_add_claim_absent t p c r hl (hwf _ (lookupRef_mem hl)) hc

theorem add_claim_to_game_semantics_witness :
    let t1 := (GameTracker.empty.update_game (some "*") "A" "b" 1 "m"
      false none 0).1
    let g1 : TrackedGame :=
      ⟨"A", "b", 1, 0, GameStatus.ACTIVE, "*", "m", [], false, none⟩
    (lookupRef t1.keys "A" = none → t1.add_claim_to_game "A" "3fold" = t1)
    ∧ (t1.find "A" = some g1 → "3fold" ∈ g1.claims →
        t1.add_claim_to_game "A" "3fold" = t1)
    ∧ (t1.find "A" = some g1 → "3fold" ∉ g1.claims →
        (t1.add_claim_to_game "A" "3fold").find "A"
          = some ({ g1 with claims := g1.claims ++ ["3fold"] }))
    ∧ (t1.add_claim_to_game "A" "3fold").add_claim_to_game "A" "3fold"
        = t1.add_claim_to_game "A" "3fold"
    ∧ (⟨"A", "b", 1, 0, GameStatus.ACTIVE, "*", "m", ["3fold"], false,
        none⟩ : TrackedGame).claims.Nodup :=
  add_claim_to_game_semantics
    (GameTracker.empty.update_game (some "*") "A" "b" 1 "m" false none 0).1
    "A" "3fold"
    ⟨"A", "b", 1, 0, GameStatus.ACTIVE, "*", "m", [], false, none⟩
    (by decide)
    [Op.update (some "*") "A" "b" 1 "m" false none 0,
     Op.addClaim "A" "3fold", Op.addClaim "A" "3fold"]
    ⟨"A", "b", 1, 0, GameStatus.ACTIVE, "*", "m", ["3fold"], false, none⟩
    (by decide)

/-! ## Facts about the scan pass -/

theorem replayMoves_failure (fmt : Nat → String → String)
    (good : List String) (rest : List (Option String)) :
    ∀ (mc : Nat) (lm : String),
      replayMoves fmt mc lm (good.map some ++ none :: rest)
        = ⟨mc + good.length + 1,
           "Error at move " ++ toString (mc + good.length + 1), true,
           some (mc + good.length + 1)⟩ := by
  induction good with
  | nil => intro mc lm; rfl
  | cons g gs ih =>
    intro mc lm
    show replayMoves fmt (mc + 1) (fmt (mc + 1) g)
        (gs.map some ++ none :: rest) = _
    rw [ih (mc + 1) (fmt (mc + 1) g)]
    have harith : mc + 1 + gs.length + 1 = mc + (g :: gs).length + 1 := by
      simp [List.length_cons]
      omega
    rw [harith]

theorem replay_failure (fmt : Nat → String → String) (good : List String)
    (rest : List (Option String)) :
    replay fmt (some (good.map some ++ none :: rest))
      = ⟨good.length + 1, "Error at move " ++ toString (good.length + 1),
         true, some (good.length + 1)⟩ := by
  show replayMoves fmt 0 "" _ = _
  rw [replayMoves_failure fmt good rest 0 ""]
  have h0 : 0 + good.length + 1 = good.length + 1 := by omega
  rw [h0]

theorem claimFold_frame (p : String) (entries : List String) :
    ∀ s : PassState,
      ((entries.foldl (claimFold p) s).err = s.err)
      ∧ ((entries.foldl (claimFold p) s).evaluated = s.evaluated)
      ∧ ((entries.foldl (claimFold p) s).count = s.count) := by
  induction entries with
  | nil => intro s; exact ⟨rfl, rfl, rfl⟩
  | cons e es ih => intro s; exact ih (claimFold p s e)

theorem append_singleton_ne {α : Type _} (l : List α) (a : α) :
    l ++ [a] ≠ l := by
  intro h
  have hlen := congrArg List.length h
  simp at hlen

/-- When the replay of a record errors, none of the three skip guards lets
the evaluator run, so the record's processing reduces to the tracker upsert
and the update signal. -/
theorem processRecord_error_skip (live : Bool) (fmt : Nat → String → String)
    (now : Nat) (s : PassState) (rec : RecordInput) (p b : String)
    (hp : rec.players = Except.ok p) (hb : rec.boardNum = Except.ok b)
    (he : (replay fmt rec.replayRec).has_error = true) :
    processRecord live fmt now s rec =
      { s with
        count := s.count + 1
        tracker := (s.tracker.update_game rec.headers_result p b
          (replay fmt rec.replayRec).move_count
          (replay fmt rec.replayRec).last_move
          (replay fmt rec.replayRec).has_error
          (replay fmt rec.replayRec).error_at_move now).1
        events := s.events ++ [Event.gameUpdate p] } := by
  simp only [processRecord, hp, hb]
  rw [if_pos he]
  split
  · rfl
  · split <;> rfl

/-- Claim C3: When the k-th move (1-based) of a record fails to decode —
`good` moves decode and the next raises — replay stops there
(`move_count = k`, nothing after the failing move is consumed), the record
is stored with `has_error = true`, `error_at_move = k` and the error
description `"Error at move k"` as `last_move`, its status becomes
`INVALID`, no exception is pending, and the pass goes on to process the
remaining records from exactly the state this record left behind. -/
theorem per_move_failure_contained (fmt : Nat → String → String)
    (good : List String) (rest : List (Option String)) (live : Bool)
    (now : Nat) (s : PassState) (rec : RecordInput)
    (more : List RecordInput) (p b : String)
    (hp : rec.players = Except.ok p) (hb : rec.boardNum = Except.ok b)
    (hrr : rec.replayRec = some (good.map some ++ none :: rest))
    (hwf : WF s.tracker) (hserr : s.err = none) :
    (replay fmt rec.replayRec).has_error = true
    ∧ (replay fmt rec.replayRec).error_at_move = some (good.length + 1)
    ∧ (replay fmt rec.replayRec).last_move
        = "Error at move " ++ toString (good.length + 1)
    ∧ (replay fmt rec.replayRec).move_count = good.length + 1
    ∧ ((processRecord live fmt now s rec).tracker.find p).map
        TrackedGame.status = some GameStatus.INVALID
    ∧ (processRecord live fmt now s rec).err = none
    ∧ processAll live fmt now s (rec :: more)
        = processAll live fmt now (processRecord live fmt now s rec) more := by
  have hre : replay fmt rec.replayRec
      = ⟨good.length + 1, "Error at move " ++ toString (good.length + 1),
         true, some (good.length + 1)⟩ := by
    rw [hrr]
    exact replay_failure fmt good rest
  have hskip := processRecord_error_skip live fmt now s rec p b hp hb
    (by rw [hre])
  have herr : (processRecord live fmt now s rec).err = none := by
    rw [hskip]
    exact hserr
  refine ⟨by rw [hre], by rw [hre], by rw [hre], by rw [hre], ?_, herr, ?_⟩
  · rw [hskip]
    have hstat := find_update_game_status s.tracker hwf rec.headers_result
      p b (replay fmt rec.replayRec).last_move
      (replay fmt rec.replayRec).move_count
      (replay fmt rec.replayRec).has_error
      (replay fmt rec.replayRec).error_at_move now
    rw [hre] at hstat ⊢
    rw [hstat]
    simp [derive_status]
  · simp only [processAll, herr]
    rfl

theorem per_move_failure_contained_witness :
    let fmt0 : Nat → String → String := fun n s => toString n ++ ". " ++ s
    let s0 : PassState :=
      ⟨GameTracker.empty, [], 0, none, []⟩
    let rec0 : RecordInput :=
      ⟨Except.ok "A vs B", Except.ok "1", some [some "e4", none, some "d4"],
       some "*", false, Except.ok []⟩
    (replay fmt0 rec0.replayRec).has_error = true
    ∧ (replay fmt0 rec0.replayRec).error_at_move = some 2
    ∧ (replay fmt0 rec0.replayRec).last_move = "Error at move " ++ toString 2
    ∧ (replay fmt0 rec0.replayRec).move_count = 2
    ∧ ((processRecord false fmt0 7 s0 rec0).tracker.find "A vs B").map
        TrackedGame.status = some GameStatus.INVALID
    ∧ (processRecord false fmt0 7 s0 rec0).err = none
    ∧ processAll false fmt0 7 s0 [rec0]
        = processAll false fmt0 7 (processRecord false fmt0 7 s0 rec0) [] :=
  per_move_failure_contained (fun n s => toString n ++ ". " ++ s)
    ["e4"] [some "d4"] false 7
    ⟨GameTracker.empty, [], 0, none, []⟩
    ⟨Except.ok "A vs B", Except.ok "1", some [some "e4", none, some "d4"],
     some "*", false, Except.ok []⟩
    [] "A vs B" "1" rfl rfl rfl (by decide) rfl

theorem processRecord_err_ok (live : Bool) (fmt : Nat → String → String)
    (now : Nat) (s : PassState) (rec : RecordInput) (p b : String)
    (v : List String)
    (hp : rec.players = Except.ok p) (hb : rec.boardNum = Except.ok b)
    (hf : rec.findings = Except.ok v) :
    (processRecord live fmt now s rec).err = s.err := by
  simp only [processRecord, hp, hb]
  split
  · rfl
  split
  · rfl
  split
  · rfl
  rw [hf]
  exact (claimFold_frame p v _).1

theorem processAll_err_none (live : Bool) (fmt : Nat → String → String)
    (now : Nat) :
    ∀ (recs : List RecordInput) (s : PassState), s.err = none →
      (∀ rec ∈ recs, (∃ v, rec.players = Except.ok v)
        ∧ (∃ v, rec.boardNum = Except.ok v)
        ∧ (∃ v, rec.findings = Except.ok v)) →
      (processAll live fmt now s recs).err = none := by
  intro recs
  induction recs with
  | nil => intro s hs _; exact hs
  | cons r rs ih =>
    intro s hs hok
    obtain ⟨⟨p, hp⟩, ⟨b, hb⟩, ⟨v, hf⟩⟩ := hok r (List.mem_cons_self r rs)
    have hr : (processRecord live fmt now s r).err = none := by
      rw [processRecord_err_ok live fmt now s r p b v hp hb hf]
      exact hs
    simp only [processAll, hr]
    exact ih _ hr fun rec hm => hok rec (List.mem_cons_of_mem r hm)

theorem check_pgn_err_none (live : Bool) (fmt : Nat → String → String)
    (now : Nat) (filename : String)
    (fileContent : Option (List RecordInput)) (t : GameTracker)
    (hok : ∀ rec ∈ fileContent.getD [], (∃ v, rec.players = Except.ok v)
            ∧ (∃ v, rec.boardNum = Except.ok v)
            ∧ (∃ v, rec.findings = Except.ok v)) :
    (check_pgn live fmt now filename fileContent t).err = none := by
  cases fileContent with
  | none => rfl
  | some recs =>
    have h := processAll_err_none live fmt now recs
      ⟨t, [], 0, none, []⟩ rfl hok
    simp only [check_pgn, h]

/-- Claim C4 (counterexample to the claim as stated):  A fault raised by the
external evaluator (`claims.check_game`) while processing a record is not
the cancellation signal, yet it escapes `check_pgn` — whose only handler is
`except FileNotFoundError` — and `run` has no handler at all, so the
worker's polling loop terminates. -/
theorem evaluator_fault_kills_worker :
    runIteration false (fun _ s => s) 0 "games.pgn" 0 (some 5)
      (some [⟨Except.ok "Alice vs Bob", Except.ok "1", some [],
             some "*", false, Except.error (PyErr.other "evaluator fault")⟩])
      GameTracker.empty
    = Except.error (PyErr.other "evaluator fault") := by rfl

/-- Claim C4 (amended): The containment the code actually provides: a missing
file (`FileNotFoundError`, whether at `getsize` or at `open`) and per-move
decode failures never terminate the loop — whenever the per-record external
calls (`get_players`, `get_board_number`, `check_game`) return normally,
the iteration ends in `Except.ok` for every record list, including records
whose replay fails move decoding arbitrarily.  Any other fault raised by
those externals propagates and terminates the worker
(`evaluator_fault_kills_worker`). -/
theorem worker_loop_survives_contained_faults (live : Bool)
    (fmt : Nat → String → String) (now : Nat) (filename : String)
    (last_size : Nat) (fileSize : Option Nat)
    (fileContent : Option (List RecordInput)) (t : GameTracker)
    (hok : ∀ rec ∈ fileContent.getD [], (∃ v, rec.players = Except.ok v)
            ∧ (∃ v, rec.boardNum = Except.ok v)
            ∧ (∃ v, rec.findings = Except.ok v)) :
    ∃ out, runIteration live fmt now filename last_size fileSize fileContent t
      = Except.ok out := by
  have hc := check_pgn_err_none live fmt now filename fileContent t hok
  by_cases hup : is_file_updated last_size (fileSize.getD 0) = true
  · refine ⟨((check_pgn live fmt now filename fileContent t).tracker,
      Event.statusEv Status.ACTIVE
        :: (check_pgn live fmt now filename fileContent t).events
        ++ [Event.statusEv Status.WAIT], fileSize.getD 0), ?_⟩
    simp [runIteration, hup, hc]
  · refine ⟨(t, [Event.statusEv Status.WAIT], fileSize.getD 0), ?_⟩
    have hup' : is_file_updated last_size (fileSize.getD 0) = false :=
      Bool.eq_false_iff.mpr hup
    simp [runIteration, hup']

theorem worker_loop_survives_contained_faults_witness :
    ∃ out, runIteration false (fun _ s => s) 0 "games.pgn" 0 (some 5)
      (some [⟨Except.ok "A vs B", Except.ok "1", some [some "e4", none],
             some "*", false, Except.ok []⟩])
      GameTracker.empty = Except.ok out :=
  worker_loop_survives_contained_faults false (fun _ s => s) 0 "games.pgn" 0
    (some 5)
    (some [⟨Except.ok "A vs B", Except.ok "1", some [some "e4", none],
           some "*", false, Except.ok []⟩])
    GameTracker.empty
    (by
      intro rec hm
      have hrec : rec = ⟨Except.ok "A vs B", Except.ok "1",
          some [some "e4", none], some "*", false, Except.ok []⟩ := by
        simpa using hm
      subst hrec
      exact ⟨⟨"A vs B", rfl⟩, ⟨"1", rfl⟩, ⟨[], rfl⟩⟩)

/-- Claim C5: For a record whose identity and board derivations succeed, the
external evaluator is invoked (the ghost log grows by this identity)
exactly when none of the three skip guards fires: (a) live mode with a
result header other than `"*"`, (b) the identity excluded, (c) the record's
replay errored; and the log either grows by the identity or is untouched,
so the evaluator is in particular never invoked for erroring or excluded
games. -/
theorem evaluator_invoked_iff (live : Bool) (fmt : Nat → String → String)
    (now : Nat) (s : PassState) (rec : RecordInput) (p b : String)
    (hp : rec.players = Except.ok p) (hb : rec.boardNum = Except.ok b) :
    ((processRecord live fmt now s rec).evaluated = s.evaluated ++ [p]
      ↔ ¬(live = true ∧ rec.headers_result.getD "*" ≠ "*")
        ∧ rec.excluded = false
        ∧ (replay fmt rec.replayRec).has_error = false)
    ∧ ((processRecord live fmt now s rec).evaluated = s.evaluated ++ [p]
        ∨ (processRecord live fmt now s rec).evaluated = s.evaluated) := by
  simp only [processRecord, hp, hb]
  by_cases h1 : (live && decide (rec.headers_result.getD "*" ≠ "*")) = true
  · rw [if_pos h1]
    refine ⟨⟨fun h => absurd h.symm (append_singleton_ne _ _), ?_⟩, Or.inr rfl⟩
    rintro ⟨hna, -, -⟩
    have h1' : live = true ∧ rec.headers_result.getD "*" ≠ "*" := by
      simpa using h1
    exact absurd h1' hna
  · rw [if_neg h1]
    by_cases h2 : rec.excluded = true
    · rw [if_pos h2]
      refine ⟨⟨fun h => absurd h.symm (append_singleton_ne _ _), ?_⟩, Or.inr rfl⟩
      rintro ⟨-, hex, -⟩
      simp [h2] at hex
    · rw [if_neg h2]
      by_cases h3 : (replay fmt rec.replayRec).has_error = true
      · rw [if_pos h3]
        refine ⟨⟨fun h => absurd h.symm (append_singleton_ne _ _), ?_⟩,
          Or.inr rfl⟩
        rintro ⟨-, -, herr⟩
        simp [h3] at herr
      · rw [if_neg h3]
        have hna : ¬(live = true ∧ rec.headers_result.getD "*" ≠ "*") := by
          rintro ⟨hlive, hres⟩
          exact h1 (by rw [hlive, decide_eq_true hres]; rfl)
        have hex : rec.excluded = false := Bool.eq_false_iff.mpr h2
        have herr : (replay fmt rec.replayRec).has_error = false :=
          Bool.eq_false_iff.mpr h3
        cases hf : rec.findings with
        | error e =>
          exact ⟨⟨fun _ => ⟨hna, hex, herr⟩, fun _ => rfl⟩, Or.inl rfl⟩
        | ok entries =>
          have heval := (claimFold_frame p entries
            ⟨(s.tracker.update_game rec.headers_result p b
                (replay fmt rec.replayRec).move_count
                (replay fmt rec.replayRec).last_move
                (replay fmt rec.replayRec).has_error
                (replay fmt rec.replayRec).error_at_move now).1,
              s.events ++ [Event.gameUpdate p], s.count + 1, s.err,
              s.evaluated ++ [p]⟩).2.1
          exact ⟨⟨fun _ => ⟨hna, hex, herr⟩, fun _ => heval⟩, Or.inl heval⟩

theorem evaluator_invoked_iff_witness :
    let s0 : PassState := ⟨GameTracker.empty, [], 0, none, []⟩
    let rec0 : RecordInput :=
      ⟨Except.ok "A vs B", Except.ok "1", some [some "e4"],
       some "1-0", false, Except.ok ["3fold"]⟩
    ((processRecord true (fun _ s => s) 0 s0 rec0).evaluated
        = s0.evaluated ++ ["A vs B"]
      ↔ ¬(true = true ∧ rec0.headers_result.getD "*" ≠ "*")
        ∧ rec0.excluded = false
        ∧ (replay (fun _ s => s) rec0.replayRec).has_error = false)
    ∧ ((processRecord true (fun _ s => s) 0 s0 rec0).evaluated
          = s0.evaluated ++ ["A vs B"]
        ∨ (processRecord true (fun _ s => s) 0 s0 rec0).evaluated
          = s0.evaluated) :=
  evaluator_invoked_iff true (fun _ s => s) 0
    ⟨GameTracker.empty, [], 0, none, []⟩
    ⟨Except.ok "A vs B", Except.ok "1", some [some "e4"],
     some "1-0", false, Except.ok ["3fold"]⟩
    "A vs B" "1" rfl rfl

/-- Claim C8: One polling-loop iteration: an absent file is treated as size 0
and the iteration succeeds without a rescan; when the size is zero or equal
to the previously observed size, the worker emits only a "waiting" status,
performs no decoding, and the tracker is untouched; when the size is
nonzero and differs, the worker emits an "active" status first, performs
the full rescan, and then emits "waiting"; the new `last_size` is the
observed size in every case. -/
theorem polling_iteration_behavior (live : Bool)
    (fmt : Nat → String → String) (now : Nat) (filename : String)
    (last_size : Nat) (fileSize : Option Nat)
    (fileContent : Option (List RecordInput)) (t : GameTracker) :
    (fileSize = none →
      runIteration live fmt now filename last_size fileSize fileContent t
        = Except.ok (t, [Event.statusEv Status.WAIT], 0))
    ∧ (fileSize.getD 0 = 0 ∨ last_size = fileSize.getD 0 →
      runIteration live fmt now filename last_size fileSize fileContent t
        = Except.ok (t, [Event.statusEv Status.WAIT], fileSize.getD 0))
    ∧ (fileSize.getD 0 ≠ 0 → last_size ≠ fileSize.getD 0 →
      (check_pgn live fmt now filename fileContent t).err = none →
      runIteration live fmt now filename last_size fileSize fileContent t
        = Except.ok ((check_pgn live fmt now filename fileContent t).tracker,
            Event.statusEv Status.ACTIVE
              :: (check_pgn live fmt now filename fileContent t).events
              ++ [Event.statusEv Status.WAIT],
            fileSize.getD 0)) := by
  refine ⟨?_, ?_, ?_⟩
  · intro h
    subst h
    simp [runIteration, is_file_updated]
  · intro h
    have hup : is_file_updated last_size (fileSize.getD 0) = false := by
      rcases h with h | h <;> simp [is_file_updated, h]
    simp [runIteration, hup]
  · intro h0 hne hc
    have hup : is_file_updated last_size (fileSize.getD 0) = true := by
      simp [is_file_updated, h0, hne]
    simp [runIteration, hup, hc]

theorem polling_iteration_behavior_witness :
    runIteration false (fun _ s => s) 0 "f.pgn" 0 none none GameTracker.empty
      = Except.ok (GameTracker.empty, [Event.statusEv Status.WAIT], 0)
    ∧ runIteration false (fun _ s => s) 0 "f.pgn" 0 (some 5) none
        GameTracker.empty
      = Except.ok ((check_pgn false (fun _ s => s) 0 "f.pgn" none
            GameTracker.empty).tracker,
          Event.statusEv Status.ACTIVE
            :: (check_pgn false (fun _ s => s) 0 "f.pgn" none
                GameTracker.empty).events
            ++ [Event.statusEv Status.WAIT], (some 5).getD 0) :=
  ⟨(polling_iteration_behavior false (fun _ s => s) 0 "f.pgn" 0 none none
      GameTracker.empty).1 rfl,
   (polling_iteration_behavior false (fun _ s => s) 0 "f.pgn" 0 (some 5) none
      GameTracker.empty).2.2 (by decide) (by decide) rfl⟩

/-- Claim C9 (counterexample): With a single existing source file holding
`"X"`, the merge pass writes `"\n\nX"`, not `"X"`: the combined file is not
the blank-line-separated concatenation of the sources, because a separator
is also emitted before the first file. -/
theorem make_pgn_not_plain_concat :
    make_pgn_data [some "X"] = "\n\n" ++ "X"
    ∧ spec_concat [some "X"] = "X"
    ∧ make_pgn_data [some "X"] ≠ spec_concat [some "X"] := by decide

theorem make_pgn_data_foldl (files : List (Option String)) :
    ∀ acc : String,
      files.foldl (fun data c => match c with
        | some content => data ++ "\n\n" ++ content
        | none => data) acc
      = acc ++ (files.filterMap id).foldr
          (fun c tail => "\n\n" ++ c ++ tail) "" := by
  induction files with
  | nil => intro acc; simp
  | cons f fs ih =>
    intro acc
    cases f with
    | none => simpa using ih acc
    | some c =>
      show fs.foldl _ (acc ++ "\n\n" ++ c) = _
      rw [ih (acc ++ "\n\n" ++ c)]
      simp [String.append_assoc]

/-- Claim C9 (amended): Each merge pass writes, for each existing source file
in list order, a blank-line separator (`"\n\n"`) followed by that file's
current contents — so the separator precedes every file, including the
first — and missing source files are skipped without failing the pass. -/
theorem make_pgn_data_characterization (files : List (Option String)) :
    make_pgn_data files
      = (files.filterMap id).foldr (fun c tail => "\n\n" ++ c ++ tail) "" := by
  have h := make_pgn_data_foldl files ""
  simpa [make_pgn_data] using h

end ChessClaimTool
